import Mathlib

/-!
Verification of the realtime polling server (Express + better-sqlite3).

The development shallowly embeds the SQLite tables of `database.js` as Lean
lists, each prepared statement as a pure function on a `DB` state, and each
route handler of `server.js` as a state-passing function returning the new
state together with the HTTP response.  Machine integers of SQLite are
modelled as `Nat` (vote counters, which the guarded decrement keeps
non-negative) and `Int` (millisecond timestamps).  A JavaScript exception
thrown inside the vote-insert loop (for example a NOT NULL violation when
`optionId` is absent) is modelled by `Except`, the carried state being the
state at the moment of the throw, because the handler has no enclosing
transaction and its `catch` block performs no rollback.
-/

/-- Row of the `polls` table. -/
structure Poll where
  id : String
  question : String
  poll_type : String
  allow_multiple : Nat
  created_by : Nat
  require_auth : Nat
  created_at : Int
deriving Repr, DecidableEq

/-- Row of the `poll_options` table.  `vote_count` is the denormalized
cached counter, `is_deleted` the soft-delete flag (0 or 1). -/
structure PollOption where
  id : Nat
  poll_id : String
  option_text : String
  vote_count : Nat
  is_deleted : Nat
deriving Repr, DecidableEq

/-- Row of the `votes` ledger table. -/
structure Vote where
  id : Nat
  poll_id : String
  option_id : Nat
  user_id : Nat
  device_fingerprint : String
  ip_address : String
  user_agent : String
  voted_at : Int
deriving Repr, DecidableEq

/-- Row of the `device_fingerprints` table. -/
structure Device where
  user_id : Nat
  fingerprint : String
  user_agent : String
  first_seen : Int
  last_seen : Int
  vote_count : Nat
deriving Repr, DecidableEq

/-- The whole SQLite database.  `nextOptionId` and `nextVoteId` model the
AUTOINCREMENT sequences of `poll_options` and `votes` (SQLite assigns
monotonically increasing ids and, with AUTOINCREMENT, never reuses one). -/
structure DB where
  polls : List Poll
  options : List PollOption
  votes : List Vote
  devices : List Device
  nextOptionId : Nat
  nextVoteId : Nat
deriving Repr, DecidableEq

/-- The freshly created database: empty tables, sequences at 1. -/
def initDB : DB := ⟨[], [], [], [], 1, 1⟩

/-! ## Prepared statements (`database.js`) -/

/-- `SELECT * FROM polls WHERE id = ?`. -/
def getPoll (db : DB) (pollId : String) : Option Poll :=
  db.polls.find? (fun p => p.id == pollId)

/-- `SELECT * FROM poll_options WHERE poll_id = ? AND is_deleted = 0 ORDER BY id`.
Rows are kept in insertion order, which is increasing id order. -/
def getOptions (db : DB) (pollId : String) : List PollOption :=
  db.options.filter (fun o => o.poll_id == pollId && o.is_deleted == 0)

/-- `INSERT INTO poll_options (poll_id, option_text, vote_count) VALUES (?, ?, 0)`. -/
def createOption (db : DB) (pollId text : String) : DB :=
  { db with options := db.options ++ [⟨db.nextOptionId, pollId, text, 0, 0⟩],
            nextOptionId := db.nextOptionId + 1 }

/-- `UPDATE poll_options SET is_deleted = 1 WHERE id = ?`. -/
def deleteOption (db : DB) (optionId : Nat) : DB :=
  { db with options := db.options.map (fun o =>
      if o.id = optionId then { o with is_deleted := 1 } else o) }

/-- `UPDATE poll_options SET vote_count = vote_count + 1 WHERE id = ?`. -/
def incrementVoteCount (db : DB) (optionId : Nat) : DB :=
  { db with options := db.options.map (fun o =>
      if o.id = optionId then { o with vote_count := o.vote_count + 1 } else o) }

/-- `UPDATE poll_options SET vote_count = vote_count - 1 WHERE id = ? AND vote_count > 0`. -/
def decrementVoteCount (db : DB) (optionId : Nat) : DB :=
  { db with options := db.options.map (fun o =>
      if o.id = optionId ∧ 0 < o.vote_count
      then { o with vote_count := o.vote_count - 1 } else o) }

/-- `INSERT INTO votes (...) VALUES (...)`. -/
def recordVote (db : DB) (pollId : String) (optionId userId : Nat)
    (fp ip ua : String) (ts : Int) : DB :=
  { db with votes := db.votes ++ [⟨db.nextVoteId, pollId, optionId, userId, fp, ip, ua, ts⟩],
            nextVoteId := db.nextVoteId + 1 }

/-- `SELECT COUNT(*) FROM votes WHERE poll_id = ? AND user_id = ?`. -/
def hasUserVoted (db : DB) (pollId : String) (userId : Nat) : Nat :=
  (db.votes.filter (fun v => v.poll_id == pollId && v.user_id == userId)).length

/-- `SELECT COUNT(*) FROM votes WHERE poll_id = ? AND device_fingerprint = ?`. -/
def hasDeviceVoted (db : DB) (pollId fp : String) : Nat :=
  (db.votes.filter (fun v => v.poll_id == pollId && v.device_fingerprint == fp)).length

/-- `SELECT option_id FROM votes WHERE poll_id = ? AND user_id = ?`. -/
def getUserVotes (db : DB) (pollId : String) (userId : Nat) : List Nat :=
  (db.votes.filter (fun v => v.poll_id == pollId && v.user_id == userId)).map
    (fun v => v.option_id)

/-- `DELETE FROM votes WHERE poll_id = ? AND user_id = ?`. -/
def removeUserVotes (db : DB) (pollId : String) (userId : Nat) : DB :=
  { db with votes := db.votes.filter (fun v =>
      !(v.poll_id == pollId && v.user_id == userId)) }

/-- `SELECT COUNT(*) FROM votes WHERE poll_id = ? AND ip_address = ? AND voted_at > ?`. -/
def getRecentVotesFromIP (db : DB) (pollId ip : String) (since : Int) : Nat :=
  (db.votes.filter
    (fun v => v.poll_id == pollId && v.ip_address == ip && decide (v.voted_at > since))).length

/-- Result row of `getPollStats`. -/
structure PollStats where
  unique_voters : Nat
  total_votes : Nat
  unique_devices : Nat
deriving Repr, DecidableEq

/-- `SELECT COUNT(DISTINCT user_id), COUNT(*), COUNT(DISTINCT device_fingerprint)
FROM votes WHERE poll_id = ?`. -/
def getPollStats (db : DB) (pollId : String) : PollStats :=
  let rows := db.votes.filter (fun v => v.poll_id == pollId)
  ⟨(rows.map (fun v => v.user_id)).dedup.length,
   rows.length,
   (rows.map (fun v => v.device_fingerprint)).dedup.length⟩

/-- `recordDeviceFingerprint` of `database.js`: update `last_seen` and bump the
per-device counter when the (user, fingerprint) pair exists, insert otherwise. -/
def recordDeviceFingerprint (db : DB) (userId : Nat) (fp ua : String) (now : Int) : DB :=
  match db.devices.find? (fun d => d.user_id == userId && d.fingerprint == fp) with
  | some _ => { db with devices := db.devices.map (fun d =>
      if d.user_id = userId ∧ d.fingerprint = fp
      then { d with last_seen := now, vote_count := d.vote_count + 1 } else d) }
  | none => { db with devices := db.devices ++ [⟨userId, fp, ua, now, now, 0⟩] }

/-! ## Eligibility resolver (`canVote`, `server.js` lines 65-93) -/

inductive VoteCheck where
  | allowed
  | denied (reason : String)
deriving Repr, DecidableEq

def alreadyVotedUserMsg : String :=
  "You have already voted in this poll. Click \"Change My Vote\" to update your vote."

def alreadyVotedDeviceMsg : String :=
  "This device has already been used to vote in this poll"

def rateLimitedMsg : String :=
  "Too many vote actions from your network. Please try again later"

/-- The anti-abuse check of `server.js`: user-uniqueness and device-uniqueness
(both skipped when changing a vote), then the IP rate ceiling over the trailing
five-minute window, 5 actions for a new vote and 10 for a change. -/
def canVote (db : DB) (pollId : String) (userId : Nat)
    (deviceFingerprint ipAddress : String) (now : Int) (isChangingVote : Bool) : VoteCheck :=
  if !isChangingVote ∧ 0 < hasUserVoted db pollId userId then
    .denied alreadyVotedUserMsg
  else if !isChangingVote ∧ 0 < hasDeviceVoted db pollId deviceFingerprint then
    .denied alreadyVotedDeviceMsg
  else
    let fiveMinutesAgo : Int := now - 5 * 60 * 1000
    let recentVotes := getRecentVotesFromIP db pollId ipAddress fiveMinutesAgo
    let maxActions : Nat := if isChangingVote then 10 else 5
    if recentVotes ≥ maxActions then .denied rateLimitedMsg else .allowed

/-! ## Route handlers (`server.js`) -/

inductive VoteResponse where
  | ok (changed : Bool)
  | errFingerprint
  | errPollNotFound
  | errDenied (reason : String)
  | errServer
deriving Repr, DecidableEq

/-- The vote-insert loop of `POST /api/polls/:pollId/vote`: one
`recordVote` plus one `incrementVoteCount` per id.  A `none` id models the
JavaScript `undefined`/`null` binding, on which better-sqlite3 throws before
inserting; the error carries the state accumulated so far (no rollback). -/
def voteLoop (pollId : String) (userId : Nat) (fp ip ua : String) (ts : Int) :
    DB → List (Option Nat) → Except DB DB
  | db, [] => .ok db
  | db, none :: _ => .error db
  | db, some i :: rest =>
      voteLoop pollId userId fp ip ua ts
        (incrementVoteCount (recordVote db pollId i userId fp ip ua ts) i) rest

/-- `POST /api/polls/:pollId/vote`.  The request carries an optional
`optionId`, an optional `optionIds` array and the device fingerprint (the
empty string models a missing/falsy fingerprint).  Mirrors the handler
line by line: fingerprint check, poll lookup, change detection, `canVote`,
device-fingerprint recording, decrement-and-delete of prior votes when
changing, then the insert loop over
`poll.allow_multiple && optionIds ? optionIds : [optionId]`. -/
def handleVote (db : DB) (pollId : String) (userId : Nat)
    (optionId : Option Nat) (optionIds : Option (List Nat))
    (deviceFingerprint ip ua : String) (now : Int) : DB × VoteResponse :=
  if deviceFingerprint = "" then (db, .errFingerprint)
  else
    match getPoll db pollId with
    | none => (db, .errPollNotFound)
    | some poll =>
      let existingVotes := getUserVotes db pollId userId
      let isChangingVote := decide (0 < existingVotes.length)
      match canVote db pollId userId deviceFingerprint ip now isChangingVote with
      | .denied reason => (db, .errDenied reason)
      | .allowed =>
        let db1 := recordDeviceFingerprint db userId deviceFingerprint ua now
        let db2 := if isChangingVote then
            removeUserVotes
              (existingVotes.foldl (fun d oid => decrementVoteCount d oid) db1)
              pollId userId
          else db1
        let idsToVote : List (Option Nat) :=
          if poll.allow_multiple ≠ 0 ∧ optionIds.isSome
          then (optionIds.getD []).map some
          else [optionId]
        match voteLoop pollId userId deviceFingerprint ip ua now db2 idsToVote with
        | .error db3 => (db3, .errServer)
        | .ok db3 => (db3, .ok isChangingVote)

inductive CreateResponse where
  | ok (pollId : String)
  | errInvalid
deriving Repr, DecidableEq

/-- `POST /api/polls`.  `question = ""` models a falsy question,
`options = none` a missing options field; the only size check is
`options.length < 2`.  The freshly generated UUID is passed in as `pollId`. -/
def handleCreatePoll (db : DB) (userId : Nat) (pollId question : String)
    (options : Option (List String)) (pollType : String) (now : Int) : DB × CreateResponse :=
  if question = "" ∨ options = none ∨ (options.getD []).length < 2 then
    (db, .errInvalid)
  else
    let allowMultiple : Nat := if pollType = "multiple" then 1 else 0
    let db1 := { db with polls := db.polls ++
      [⟨pollId, question, if pollType = "" then "single" else pollType,
        allowMultiple, userId, 1, now⟩] }
    ((options.getD []).foldl (fun d t => createOption d pollId t) db1, .ok pollId)

inductive MutResponse where
  | ok
  | errInvalid
  | errNotFound
  | errForbidden
deriving Repr, DecidableEq

/-- `POST /api/polls/:pollId/options`: blank-text check, poll lookup,
ownership check, then `createOption` with the trimmed text. -/
def handleAddOption (db : DB) (userId : Nat) (pollId optionText : String) : DB × MutResponse :=
  if optionText.trim = "" then (db, .errInvalid)
  else
    match getPoll db pollId with
    | none => (db, .errNotFound)
    | some poll =>
      if poll.created_by ≠ userId then (db, .errForbidden)
      else (createOption db pollId optionText.trim, .ok)

/-- `DELETE /api/polls/:pollId/options/:optionId`: poll lookup and ownership
check on the poll named in the URL, then `deleteOption` on the raw option id
(no check that the option belongs to that poll). -/
def handleDeleteOption (db : DB) (userId : Nat) (pollId : String) (optionId : Nat) :
    DB × MutResponse :=
  match getPoll db pollId with
  | none => (db, .errNotFound)
  | some poll =>
    if poll.created_by ≠ userId then (db, .errForbidden)
    else (deleteOption db optionId, .ok)

/-- Response body of `GET /api/polls/:pollId`. -/
structure Snapshot where
  poll : Poll
  options : List PollOption
  hasVoted : Bool
  votedOptionIds : List Nat
  requiresAuth : Bool
  stats : PollStats
deriving Repr, DecidableEq

/-- `GET /api/polls/:pollId`: a read of the poll row, live options, the
viewer's live votes (empty when unauthenticated) and the aggregate stats.
`viewer = some u` is an authenticated session for account `u`. -/
def handleGetPoll (db : DB) (pollId : String) (viewer : Option Nat) : DB × Option Snapshot :=
  match getPoll db pollId with
  | none => (db, none)
  | some poll =>
    let userVotes := match viewer with
      | some u => getUserVotes db pollId u
      | none => []
    (db, some ⟨poll, getOptions db pollId, decide (0 < userVotes.length), userVotes,
               poll.require_auth == 1, getPollStats db pollId⟩)

/-! ## Operation traces (for the count invariant) -/

/-- One client-visible mutating or reading operation. -/
inductive Op where
  | createPoll (userId : Nat) (pollId question : String)
      (options : Option (List String)) (pollType : String) (now : Int)
  | vote (pollId : String) (userId : Nat) (optionId : Option Nat)
      (optionIds : Option (List Nat)) (fp ip ua : String) (now : Int)
  | addOption (userId : Nat) (pollId text : String)
  | removeOption (userId : Nat) (pollId : String) (optionId : Nat)
  | readPoll (pollId : String) (viewer : Option Nat)
deriving Repr, DecidableEq

/-- State reached after one operation (the response is discarded). -/
def applyOp (db : DB) : Op → DB
  | .createPoll u pid q os ty t => (handleCreatePoll db u pid q os ty t).1
  | .vote pid u oid oids fp ip ua t => (handleVote db pid u oid oids fp ip ua t).1
  | .addOption u pid txt => (handleAddOption db u pid txt).1
  | .removeOption u pid oid => (handleDeleteOption db u pid oid).1
  | .readPoll pid v => (handleGetPoll db pid v).1

/-- State reached after a whole trace of operations. -/
def runOps (db : DB) : List Op → DB
  | [] => db
  | op :: rest => runOps (applyOp db op) rest

/-- Number of ledger rows referencing a given option id. -/
def countVotes (db : DB) (optionId : Nat) : Nat :=
  (db.votes.filter (fun v => v.option_id == optionId)).length

/-- The cached-counter invariant: every option row's `vote_count` equals the
number of ledger rows referencing its id. -/
def countsOK (db : DB) : Prop :=
  ∀ o ∈ db.options, o.vote_count = countVotes db o.id

/-- Well-formedness: the counter invariant plus the AUTOINCREMENT bound that
every ledger row references an id strictly below the next option id. -/
def dbWF (db : DB) : Prop :=
  countsOK db ∧ (∀ o ∈ db.options, o.id < db.nextOptionId) ∧
  (∀ v ∈ db.votes, v.option_id < db.nextOptionId)

instance : DecidablePred countsOK := fun db => by
  unfold countsOK; infer_instance

instance (db : DB) : Decidable (dbWF db) := by
  unfold dbWF; infer_instance

/-- Does some option row carry this id? -/
def optionIdExistsB (db : DB) (i : Nat) : Bool :=
  db.options.any (fun o => o.id == i)

/-- A vote request is valid when every option id it carries references an
existing option row of the current state; other operations always are. -/
def opValidB (db : DB) : Op → Bool
  | .vote _ _ oid oids _ _ _ _ =>
      (match oid with
       | some i => optionIdExistsB db i
       | none => true) &&
      (oids.getD []).all (fun i => optionIdExistsB db i)
  | _ => true

/-- Every vote request of the trace is valid in the state it executes in. -/
def traceValidB (db : DB) : List Op → Bool
  | [] => true
  | op :: rest => opValidB db op && traceValidB (applyOp db op) rest

/-! ## Projection lemmas for the individual statements -/

theorem recordDeviceFingerprint_votes (db : DB) (u : Nat) (fp ua : String) (t : Int) :
    (recordDeviceFingerprint db u fp ua t).votes = db.votes := by
  unfold recordDeviceFingerprint; split <;> rfl

theorem recordDeviceFingerprint_options (db : DB) (u : Nat) (fp ua : String) (t : Int) :
    (recordDeviceFingerprint db u fp ua t).options = db.options := by
  unfold recordDeviceFingerprint; split <;> rfl

theorem recordDeviceFingerprint_nextOptionId (db : DB) (u : Nat) (fp ua : String) (t : Int) :
    (recordDeviceFingerprint db u fp ua t).nextOptionId = db.nextOptionId := by
  unfold recordDeviceFingerprint; split <;> rfl

theorem recordDeviceFingerprint_nextVoteId (db : DB) (u : Nat) (fp ua : String) (t : Int) :
    (recordDeviceFingerprint db u fp ua t).nextVoteId = db.nextVoteId := by
  unfold recordDeviceFingerprint; split <;> rfl

theorem hasUserVoted_eq_length (db : DB) (p : String) (u : Nat) :
    hasUserVoted db p u = (getUserVotes db p u).length := by
  simp [hasUserVoted, getUserVotes]

/-- `countVotes` only looks at the ledger. -/
theorem countVotes_eq_of_votes {d1 d2 : DB} (h : d1.votes = d2.votes) (j : Nat) :
    countVotes d1 j = countVotes d2 j := by
  unfold countVotes; rw [h]

theorem countVotes_recordVote (db : DB) (p : String) (i u : Nat) (f ip ua : String)
    (t : Int) (j : Nat) :
    countVotes (recordVote db p i u f ip ua t) j
      = countVotes db j + (if i = j then 1 else 0) := by
  unfold countVotes recordVote
  simp only [List.filter_append, List.length_append]
  by_cases h : i = j
  · subst h; simp
  · simp [List.filter_cons, h]

/-- Sequentially applying the guarded decrement once per element of `L` turns
each option's counter into truncated subtraction by its multiplicity in `L`. -/
theorem foldl_decrement_options (L : List Nat) (db : DB) :
    (L.foldl (fun d i => decrementVoteCount d i) db).options
      = db.options.map (fun o => { o with vote_count := o.vote_count - L.count o.id }) := by
  induction L generalizing db with
  | nil =>
    simp only [List.foldl_nil, List.count_nil, Nat.sub_zero]
    exact (List.map_id db.options).symm
  | cons i L ih =>
    simp only [List.foldl_cons]
    rw [ih]
    unfold decrementVoteCount
    rw [List.map_map]
    refine List.map_congr_left (fun o _ => ?_)
    simp only [Function.comp]
    by_cases hid : o.id = i
    · by_cases hvc : 0 < o.vote_count
      · rw [if_pos (And.intro hid hvc)]
        show ({ o with vote_count := o.vote_count - 1 - L.count o.id } : PollOption)
           = { o with vote_count := o.vote_count - (i :: L).count o.id }
        rw [hid, List.count_cons_self]
        have h1 : o.vote_count - 1 - L.count i = o.vote_count - (L.count i + 1) := by omega
        rw [h1]
      · rw [if_neg (fun hc : o.id = i ∧ 0 < o.vote_count => hvc hc.2)]
        show ({ o with vote_count := o.vote_count - L.count o.id } : PollOption)
           = { o with vote_count := o.vote_count - (i :: L).count o.id }
        rw [hid, List.count_cons_self]
        have h2 : o.vote_count - L.count i = o.vote_count - (L.count i + 1) := by omega
        rw [h2]
    · rw [if_neg (fun hc : o.id = i ∧ 0 < o.vote_count => hid hc.1)]
      show ({ o with vote_count := o.vote_count - L.count o.id } : PollOption)
         = { o with vote_count := o.vote_count - (i :: L).count o.id }
      rw [List.count_cons_of_ne hid]

theorem foldl_decrement_votes (L : List Nat) (db : DB) :
    (L.foldl (fun d i => decrementVoteCount d i) db).votes = db.votes := by
  induction L generalizing db with
  | nil => rfl
  | cons i L ih => simpa using ih (decrementVoteCount db i)

theorem foldl_decrement_nextOptionId (L : List Nat) (db : DB) :
    (L.foldl (fun d i => decrementVoteCount d i) db).nextOptionId = db.nextOptionId := by
  induction L generalizing db with
  | nil => rfl
  | cons i L ih => simpa using ih (decrementVoteCount db i)

/-- Splitting a `countP` along a second predicate. -/
theorem countP_and_not_add (l : List Vote) (p q : Vote → Bool) :
    l.countP (fun a => p a && !(q a)) + l.countP (fun a => p a && q a) = l.countP p := by
  induction l with
  | nil => simp
  | cons a l ih =>
    simp only [List.countP_cons]
    cases hp : p a <;> cases hq : q a <;> simp [hp, hq] <;> omega

/-- Deleting a voter's rows lowers each option id's ledger count by exactly
the multiplicity of that id among the deleted rows. -/
theorem countVotes_removeUserVotes (db : DB) (p : String) (u : Nat) (j : Nat) :
    countVotes (removeUserVotes db p u) j
      = countVotes db j - (getUserVotes db p u).count j := by
  unfold countVotes removeUserVotes getUserVotes
  simp only [← List.countP_eq_length_filter, List.countP_filter, List.count_eq_countP,
    List.countP_map]
  have key := countP_and_not_add db.votes
    (fun v => v.option_id == j) (fun v => v.poll_id == p && v.user_id == u)
  have h1 : db.votes.countP
        (fun a => ((fun x => x == j) ∘ fun v => v.option_id) a && (a.poll_id == p && a.user_id == u))
      = db.votes.countP (fun a => (a.option_id == j) && (a.poll_id == p && a.user_id == u)) := rfl
  omega
/-! ## Preservation of the counter invariant -/

theorem countVotes_votePair (db : DB) (p : String) (i u : Nat) (f ip ua : String)
    (t : Int) (j : Nat) :
    countVotes (incrementVoteCount (recordVote db p i u f ip ua t) i) j
      = countVotes db j + (if i = j then 1 else 0) :=
  countVotes_recordVote db p i u f ip ua t j

theorem votePair_wf (db : DB) (p : String) (i u : Nat) (f ip ua : String) (t : Int)
    (h : dbWF db) (hi : i < db.nextOptionId) :
    dbWF (incrementVoteCount (recordVote db p i u f ip ua t) i) := by
  obtain ⟨hc, ho, hv⟩ := h
  refine ⟨?_, ?_, ?_⟩
  · intro o' ho'
    obtain ⟨o, hom, rfl⟩ := List.mem_map.mp ho'
    by_cases hoi : o.id = i
    · rw [if_pos hoi]
      show o.vote_count + 1 = countVotes (incrementVoteCount (recordVote db p i u f ip ua t) i) o.id
      rw [countVotes_votePair, if_pos hoi.symm, hc o hom]
    · rw [if_neg hoi]
      show o.vote_count = countVotes (incrementVoteCount (recordVote db p i u f ip ua t) i) o.id
      rw [countVotes_votePair, if_neg (fun hh => hoi hh.symm), hc o hom]
      rfl
  · intro o' ho'
    obtain ⟨o, hom, rfl⟩ := List.mem_map.mp ho'
    by_cases hoi : o.id = i
    · rw [if_pos hoi]; exact ho o hom
    · rw [if_neg hoi]; exact ho o hom
  · intro v hvm
    rcases List.mem_append.mp hvm with hL | hR
    · exact hv v hL
    · rw [List.mem_singleton.mp hR]; exact hi

theorem countVotes_fresh (db : DB) (h : ∀ v ∈ db.votes, v.option_id < db.nextOptionId) :
    countVotes db db.nextOptionId = 0 := by
  unfold countVotes
  rw [← List.countP_eq_length_filter]
  refine List.countP_eq_zero.mpr (fun v hvm => ?_)
  have := h v hvm
  simp only [beq_iff_eq]
  omega

theorem createOption_wf (db : DB) (pid txt : String) (h : dbWF db) :
    dbWF (createOption db pid txt) := by
  obtain ⟨hc, ho, hv⟩ := h
  refine ⟨?_, ?_, ?_⟩
  · intro o' ho'
    rcases List.mem_append.mp ho' with hL | hR
    · exact hc o' hL
    · rw [List.mem_singleton.mp hR]
      show (0 : Nat) = countVotes (createOption db pid txt) db.nextOptionId
      have : countVotes (createOption db pid txt) db.nextOptionId
          = countVotes db db.nextOptionId := rfl
      rw [this, countVotes_fresh db hv]
  · intro o' ho'
    rcases List.mem_append.mp ho' with hL | hR
    · have := ho o' hL
      show o'.id < db.nextOptionId + 1
      omega
    · rw [List.mem_singleton.mp hR]
      show db.nextOptionId < db.nextOptionId + 1
      omega
  · intro v hvm
    have := hv v hvm
    show v.option_id < db.nextOptionId + 1
    omega

theorem foldl_createOption_wf (ts : List String) (db : DB) (pid : String) (h : dbWF db) :
    dbWF (ts.foldl (fun d t => createOption d pid t) db) := by
  induction ts generalizing db with
  | nil => exact h
  | cons t ts ih => exact ih (createOption db pid t) (createOption_wf db pid t h)

theorem deleteOption_wf (db : DB) (i : Nat) (h : dbWF db) : dbWF (deleteOption db i) := by
  obtain ⟨hc, ho, hv⟩ := h
  refine ⟨?_, ?_, ?_⟩
  · intro o' ho'
    obtain ⟨o, hom, rfl⟩ := List.mem_map.mp ho'
    by_cases hoi : o.id = i
    · rw [if_pos hoi]; exact hc o hom
    · rw [if_neg hoi]; exact hc o hom
  · intro o' ho'
    obtain ⟨o, hom, rfl⟩ := List.mem_map.mp ho'
    by_cases hoi : o.id = i
    · rw [if_pos hoi]; exact ho o hom
    · rw [if_neg hoi]; exact ho o hom
  · intro v hvm
    exact hv v hvm

theorem getUserVotes_eq_of_votes {d1 d2 : DB} (h : d1.votes = d2.votes)
    (p : String) (u : Nat) : getUserVotes d1 p u = getUserVotes d2 p u := by
  unfold getUserVotes; rw [h]

theorem recordDeviceFingerprint_wf (db : DB) (u : Nat) (fp ua : String) (t : Int)
    (h : dbWF db) : dbWF (recordDeviceFingerprint db u fp ua t) := by
  obtain ⟨hc, ho, hv⟩ := h
  refine ⟨?_, ?_, ?_⟩
  · intro o ho'
    rw [recordDeviceFingerprint_options] at ho'
    rw [countVotes_eq_of_votes (recordDeviceFingerprint_votes db u fp ua t)]
    exact hc o ho'
  · intro o ho'
    rw [recordDeviceFingerprint_options] at ho'
    rw [recordDeviceFingerprint_nextOptionId]
    exact ho o ho'
  · intro v hvm
    rw [recordDeviceFingerprint_votes] at hvm
    rw [recordDeviceFingerprint_nextOptionId]
    exact hv v hvm

theorem change_phase_wf (d : DB) (p : String) (u : Nat) (h : dbWF d) :
    dbWF (removeUserVotes ((getUserVotes d p u).foldl (fun x i => decrementVoteCount x i) d) p u) := by
  obtain ⟨hc, ho, hv⟩ := h
  refine ⟨?_, ?_, ?_⟩
  · intro o' ho'
    have hopts : (removeUserVotes ((getUserVotes d p u).foldl (fun x i => decrementVoteCount x i) d) p u).options
        = d.options.map (fun o => { o with vote_count := o.vote_count - (getUserVotes d p u).count o.id }) :=
      foldl_decrement_options (getUserVotes d p u) d
    rw [hopts] at ho'
    obtain ⟨o, hom, rfl⟩ := List.mem_map.mp ho'
    show o.vote_count - (getUserVotes d p u).count o.id
        = countVotes (removeUserVotes ((getUserVotes d p u).foldl (fun x i => decrementVoteCount x i) d) p u) o.id
    have hvotes : countVotes (removeUserVotes ((getUserVotes d p u).foldl (fun x i => decrementVoteCount x i) d) p u) o.id
        = countVotes (removeUserVotes d p u) o.id := by
      apply countVotes_eq_of_votes
      show ((getUserVotes d p u).foldl (fun x i => decrementVoteCount x i) d).votes.filter _
          = d.votes.filter _
      rw [foldl_decrement_votes]
    rw [hvotes, countVotes_removeUserVotes, hc o hom]
  · intro o' ho'
    have hopts : (removeUserVotes ((getUserVotes d p u).foldl (fun x i => decrementVoteCount x i) d) p u).options
        = d.options.map (fun o => { o with vote_count := o.vote_count - (getUserVotes d p u).count o.id }) :=
      foldl_decrement_options (getUserVotes d p u) d
    rw [hopts] at ho'
    obtain ⟨o, hom, rfl⟩ := List.mem_map.mp ho'
    show o.id < (removeUserVotes ((getUserVotes d p u).foldl (fun x i => decrementVoteCount x i) d) p u).nextOptionId
    have hnext : (removeUserVotes ((getUserVotes d p u).foldl (fun x i => decrementVoteCount x i) d) p u).nextOptionId
        = d.nextOptionId := foldl_decrement_nextOptionId (getUserVotes d p u) d
    rw [hnext]
    exact ho o hom
  · intro v hvm
    have hvm' : v ∈ ((getUserVotes d p u).foldl (fun x i => decrementVoteCount x i) d).votes :=
      (List.mem_filter.mp hvm).1
    rw [foldl_decrement_votes] at hvm'
    have hnext : (removeUserVotes ((getUserVotes d p u).foldl (fun x i => decrementVoteCount x i) d) p u).nextOptionId
        = d.nextOptionId := foldl_decrement_nextOptionId (getUserVotes d p u) d
    rw [hnext]
    exact hv v hvm'

def exceptDB : Except DB DB → DB
  | .ok d => d
  | .error d => d

theorem voteLoop_wf (p : String) (u : Nat) (f ip ua : String) (t : Int) :
    ∀ (ids : List (Option Nat)) (db : DB), dbWF db →
      (∀ i, some i ∈ ids → i < db.nextOptionId) →
      dbWF (exceptDB (voteLoop p u f ip ua t db ids))
  | [], _, h, _ => h
  | none :: _, _, h, _ => h
  | some i :: rest, db, h, hb => by
      have hi : i < db.nextOptionId := hb i (List.mem_cons_self _ _)
      have h' := votePair_wf db p i u f ip ua t h hi
      have hnext : (incrementVoteCount (recordVote db p i u f ip ua t) i).nextOptionId
          = db.nextOptionId := rfl
      exact voteLoop_wf p u f ip ua t rest _ h'
        (fun j hj => by rw [hnext]; exact hb j (List.mem_cons_of_mem _ hj))

theorem match_except_fst (e : Except DB DB) (r1 r2 : VoteResponse) :
    (match e with | .error d => (d, r1) | .ok d => (d, r2)).1 = exceptDB e := by
  cases e <;> rfl

theorem handleGetPoll_state (db : DB) (p : String) (v : Option Nat) :
    (handleGetPoll db p v).1 = db := by
  unfold handleGetPoll
  split <;> rfl

theorem handleCreatePoll_wf (db : DB) (u : Nat) (pid q : String)
    (os : Option (List String)) (ty : String) (t : Int) (h : dbWF db) :
    dbWF (handleCreatePoll db u pid q os ty t).1 := by
  unfold handleCreatePoll
  split
  · exact h
  · obtain ⟨hc, ho, hv⟩ := h
    exact foldl_createOption_wf (os.getD []) _ pid ⟨hc, ho, hv⟩

theorem handleAddOption_wf (db : DB) (u : Nat) (pid txt : String) (h : dbWF db) :
    dbWF (handleAddOption db u pid txt).1 := by
  unfold handleAddOption
  split
  · exact h
  · split
    · exact h
    · split
      · exact h
      · exact createOption_wf db pid txt.trim h

theorem handleDeleteOption_wf (db : DB) (u : Nat) (pid : String) (oid : Nat) (h : dbWF db) :
    dbWF (handleDeleteOption db u pid oid).1 := by
  unfold handleDeleteOption
  split
  · exact h
  · split
    · exact h
    · exact deleteOption_wf db oid h

theorem handleVote_wf (db : DB) (p : String) (u : Nat) (oid : Option Nat)
    (oids : Option (List Nat)) (fp ip ua : String) (t : Int) (h : dbWF db)
    (h1 : ∀ i, oid = some i → i < db.nextOptionId)
    (h2 : ∀ i ∈ oids.getD [], i < db.nextOptionId) :
    dbWF (handleVote db p u oid oids fp ip ua t).1 := by
  simp only [handleVote]
  split
  · exact h
  · split
    · exact h
    · rename_i poll hpoll
      split
      · exact h
      · rw [match_except_fst]
        have hwf1 : dbWF (recordDeviceFingerprint db u fp ua t) :=
          recordDeviceFingerprint_wf db u fp ua t h
        have hvotes1 : db.votes = (recordDeviceFingerprint db u fp ua t).votes :=
          (recordDeviceFingerprint_votes db u fp ua t).symm
        have hwf2 : dbWF (if decide (0 < (getUserVotes db p u).length) = true then
            removeUserVotes ((getUserVotes db p u).foldl (fun d oid => decrementVoteCount d oid)
              (recordDeviceFingerprint db u fp ua t)) p u
          else recordDeviceFingerprint db u fp ua t) := by
          split
          · rw [getUserVotes_eq_of_votes hvotes1 p u]
            exact change_phase_wf (recordDeviceFingerprint db u fp ua t) p u hwf1
          · exact hwf1
        have hnext2 : (if decide (0 < (getUserVotes db p u).length) = true then
            removeUserVotes ((getUserVotes db p u).foldl (fun d oid => decrementVoteCount d oid)
              (recordDeviceFingerprint db u fp ua t)) p u
          else recordDeviceFingerprint db u fp ua t).nextOptionId = db.nextOptionId := by
          split
          · show ((getUserVotes db p u).foldl (fun d oid => decrementVoteCount d oid)
              (recordDeviceFingerprint db u fp ua t)).nextOptionId = db.nextOptionId
            rw [foldl_decrement_nextOptionId]
            exact recordDeviceFingerprint_nextOptionId db u fp ua t
          · exact recordDeviceFingerprint_nextOptionId db u fp ua t
        apply voteLoop_wf p u fp ip ua t _ _ hwf2
        intro i hi
        rw [hnext2]
        rcases hsplit : decide (poll.allow_multiple ≠ 0 ∧ oids.isSome) with _ | _
        · rw [if_neg (of_decide_eq_false hsplit)] at hi  -- hmm the if in goal? hi is membership in the if-list
          exact h1 i (List.mem_singleton.mp hi).symm
        · rw [if_pos (of_decide_eq_true hsplit)] at hi
          obtain ⟨j, hj, hji⟩ := List.mem_map.mp hi
          rw [← Option.some_inj.mp hji]  -- hji : some j = some i
          exact h2 j hj

theorem optionIdExistsB_lt (db : DB) (i : Nat) (h : dbWF db)
    (hex : optionIdExistsB db i = true) : i < db.nextOptionId := by
  obtain ⟨-, ho, -⟩ := h
  obtain ⟨o, hom, hoi⟩ := List.any_eq_true.mp hex
  have : o.id = i := by simpa using hoi
  rw [← this]
  exact ho o hom

theorem applyOp_wf (db : DB) (op : Op) (h : dbWF db) (hv : opValidB db op = true) :
    dbWF (applyOp db op) := by
  cases op with
  | createPoll u pid q os ty t => exact handleCreatePoll_wf db u pid q os ty t h
  | vote pid u oid oids fp ip ua t =>
      simp only [opValidB, Bool.and_eq_true] at hv
      obtain ⟨hv1, hv2⟩ := hv
      apply handleVote_wf db pid u oid oids fp ip ua t h
      · intro i hoid
        rw [hoid] at hv1
        exact optionIdExistsB_lt db i h hv1
      · intro i hi
        rw [List.all_eq_true] at hv2
        exact optionIdExistsB_lt db i h (hv2 i hi)
  | addOption u pid txt => exact handleAddOption_wf db u pid txt h
  | removeOption u pid oid => exact handleDeleteOption_wf db u pid oid h
  | readPoll pid v =>
      show dbWF (handleGetPoll db pid v).1
      rw [handleGetPoll_state]
      exact h

theorem runOps_wf (ops : List Op) (db : DB) (h : dbWF db)
    (hv : traceValidB db ops = true) : dbWF (runOps db ops) := by
  induction ops generalizing db with
  | nil => exact h
  | cons op ops ih =>
      simp only [traceValidB, Bool.and_eq_true] at hv
      exact ih (applyOp db op) (applyOp_wf db op h hv.1) hv.2

/-! ## Claim C2: cached counters versus the ledger -/

/-- **C2 (amended; see the counterexample).**  The counter invariant holds
after every trace of operations in which every vote request only references
option ids that exist at the moment of the request: starting from a
well-formed state, after any such trace every option row's cached
`vote_count` equals the number of ledger rows referencing its id. -/
theorem spec_C2_amended (db : DB) (ops : List Op) (h : dbWF db)
    (hvalid : traceValidB db ops = true) :
    ∀ o ∈ (runOps db ops).options, o.vote_count = countVotes (runOps db ops) o.id :=
  (runOps_wf ops db h hvalid).1

/-- Witness for `spec_C2_amended`: a concrete valid trace (create a poll,
cast one valid vote) on which the invariant conclusion is obtained by
applying the theorem. -/
theorem spec_C2_amended_witness :
    dbWF initDB ∧
    traceValidB initDB [Op.createPoll 1 "P" "Q" (some ["A", "B"]) "single" 0,
      Op.vote "P" 2 (some 1) none "f1" "ip" "ua" 5] = true ∧
    ∀ o ∈ (runOps initDB [Op.createPoll 1 "P" "Q" (some ["A", "B"]) "single" 0,
        Op.vote "P" 2 (some 1) none "f1" "ip" "ua" 5]).options,
      o.vote_count = countVotes (runOps initDB
        [Op.createPoll 1 "P" "Q" (some ["A", "B"]) "single" 0,
         Op.vote "P" 2 (some 1) none "f1" "ip" "ua" 5]) o.id :=
  ⟨by decide, by decide,
   spec_C2_amended initDB
     [Op.createPoll 1 "P" "Q" (some ["A", "B"]) "single" 0,
      Op.vote "P" 2 (some 1) none "f1" "ip" "ua" 5] (by decide) (by decide)⟩

/-- The reachable state of the C2 counterexample: create poll `P` with
options 1 and 2, let user 2 vote on `P` for the not-yet-assigned option
id 3 (the handler records it without validation), then create a second
poll, whose first option AUTOINCREMENT assigns id 3. -/
def dbC2 : DB :=
  runOps initDB [Op.createPoll 1 "P" "Q" (some ["A", "B"]) "single" 0,
    Op.vote "P" 2 (some 3) none "f1" "ip" "ua" 100,
    Op.createPoll 1 "P2" "Q2" (some ["C", "D"]) "single" 200]

/-- **C2 counterexample.**  In the reachable state `dbC2` the option with
id 3 has cached `vote_count` 0 while one ledger row references id 3, so the
claimed invariant fails after these operations. -/
theorem spec_C2_counterexample :
    (∃ o ∈ dbC2.options, o.id = 3 ∧ o.vote_count = 0) ∧
    countVotes dbC2 3 = 1 ∧ ¬ countsOK dbC2 := by
  refine ⟨by decide, by decide, by decide⟩

/-! ## Claims C5 and C6: the eligibility resolver -/

/-- When the identity checks pass (either because the request is a vote
change, which skips them, or because neither key has voted), `canVote`
reduces to the pure rate check. -/
theorem canVote_identity_pass (db : DB) (p : String) (u : Nat) (fp ip : String)
    (now : Int) (isChanging : Bool)
    (hid : isChanging = true ∨ (hasUserVoted db p u = 0 ∧ hasDeviceVoted db p fp = 0)) :
    canVote db p u fp ip now isChanging =
      if getRecentVotesFromIP db p ip (now - 5 * 60 * 1000) ≥ (if isChanging then 10 else 5)
      then .denied rateLimitedMsg else .allowed := by
  unfold canVote
  rcases hid with rfl | ⟨h1, h2⟩
  · simp
  · cases isChanging <;> simp [h1, h2]

/-- **C5 (confirmed).**  For every vote request whose identity checks pass
(every vote change, and every new vote from a fresh account and device), the
IP rate check decides the outcome: counting the ledger rows of that IP on
that poll with timestamps inside the trailing five-minute window, the
request is denied as rate-limited exactly when the count has reached the
ceiling (5 for new votes, 10 for changes), and allowed below it — so the
request after the ceiling within the window is denied and a request after
the window has elapsed succeeds again. -/
theorem spec_C5_rate_limit (db : DB) (p : String) (u : Nat) (fp ip : String)
    (now : Int) (isChanging : Bool)
    (hid : isChanging = true ∨ (hasUserVoted db p u = 0 ∧ hasDeviceVoted db p fp = 0)) :
    (getRecentVotesFromIP db p ip (now - 5 * 60 * 1000) ≥ (if isChanging then 10 else 5) →
      canVote db p u fp ip now isChanging = .denied rateLimitedMsg) ∧
    (getRecentVotesFromIP db p ip (now - 5 * 60 * 1000) < (if isChanging then 10 else 5) →
      canVote db p u fp ip now isChanging = .allowed) := by
  rw [canVote_identity_pass db p u fp ip now isChanging hid]
  constructor
  · intro hge; rw [if_pos hge]
  · intro hlt; rw [if_neg (by omega)]

/-- Ledger used by the C5 witness: five accepted votes from one IP on poll
`P` by five distinct accounts and devices, all at time 1000000. -/
def dbC5 : DB :=
  runOps initDB [Op.createPoll 1 "P" "Q" (some ["A", "B"]) "single" 0,
    Op.vote "P" 11 (some 1) none "g1" "ip" "ua" 1000000,
    Op.vote "P" 12 (some 1) none "g2" "ip" "ua" 1000000,
    Op.vote "P" 13 (some 1) none "g3" "ip" "ua" 1000000,
    Op.vote "P" 14 (some 1) none "g4" "ip" "ua" 1000000,
    Op.vote "P" 15 (some 1) none "g5" "ip" "ua" 1000000]

/-- Witness for `spec_C5_rate_limit`: with five recent rows from `ip`, the
sixth fresh voter from the same IP is denied as rate-limited one millisecond
later, and allowed again once the five-minute window has elapsed. -/
theorem spec_C5_rate_limit_witness :
    (getRecentVotesFromIP dbC5 "P" "ip" (1000001 - 5 * 60 * 1000) ≥ 5 ∧
      canVote dbC5 "P" 6 "f6" "ip" 1000001 false = .denied rateLimitedMsg) ∧
    (getRecentVotesFromIP dbC5 "P" "ip" (1400001 - 5 * 60 * 1000) < 5 ∧
      canVote dbC5 "P" 6 "f6" "ip" 1400001 false = .allowed) := by
  constructor
  · exact ⟨by decide, (spec_C5_rate_limit dbC5 "P" 6 "f6" "ip" 1000001 false
      (Or.inr ⟨by decide, by decide⟩)).1 (by decide)⟩
  · exact ⟨by decide, (spec_C5_rate_limit dbC5 "P" 6 "f6" "ip" 1400001 false
      (Or.inr ⟨by decide, by decide⟩)).2 (by decide)⟩

/-- **C6 (confirmed).**  For a request that is not a vote change, `canVote`
denies with the already-voted reason when the account has a ledger row on the
poll, and with the device-already-voted reason when the account is fresh but
the fingerprint has one; for a vote change both identity checks are skipped
and the outcome is either allowed or the rate-limit denial, the latter
exactly when the IP's recent count has reached 10. -/
theorem spec_C6_identity_checks (db : DB) (p : String) (u : Nat) (fp ip : String) (now : Int) :
    (0 < hasUserVoted db p u →
      canVote db p u fp ip now false = .denied alreadyVotedUserMsg) ∧
    (hasUserVoted db p u = 0 → 0 < hasDeviceVoted db p fp →
      canVote db p u fp ip now false = .denied alreadyVotedDeviceMsg) ∧
    (canVote db p u fp ip now true = .allowed ∨
      canVote db p u fp ip now true = .denied rateLimitedMsg) ∧
    (canVote db p u fp ip now true = .denied rateLimitedMsg ↔
      getRecentVotesFromIP db p ip (now - 5 * 60 * 1000) ≥ 10) := by
  refine ⟨?_, ?_, ?_, ?_⟩
  · intro h
    unfold canVote
    rw [if_pos ⟨rfl, h⟩]
  · intro h1 h2
    unfold canVote
    rw [if_neg (fun hc => by omega), if_pos ⟨rfl, h2⟩]
  · rw [canVote_identity_pass db p u fp ip now true (Or.inl rfl),
      show (if (true : Bool) = true then 10 else 5) = 10 from rfl]
    by_cases hge : getRecentVotesFromIP db p ip (now - 5 * 60 * 1000) ≥ 10
    · right; rw [if_pos hge]
    · left; rw [if_neg hge]
  · rw [canVote_identity_pass db p u fp ip now true (Or.inl rfl),
      show (if (true : Bool) = true then 10 else 5) = 10 from rfl]
    constructor
    · intro h
      by_cases hge : getRecentVotesFromIP db p ip (now - 5 * 60 * 1000) ≥ 10
      · exact hge
      · rw [if_neg hge] at h
        exact absurd h (by simp)
    · intro hge
      rw [if_pos hge]

/-- Ledger used by the C6 witness: one accepted vote by account 2 from
device `f1` on poll `P`. -/
def dbC6 : DB :=
  runOps initDB [Op.createPoll 1 "P" "Q" (some ["A", "B"]) "single" 0,
    Op.vote "P" 2 (some 1) none "f1" "ip" "ua" 100]

/-- Witness for `spec_C6_identity_checks`: account 2 retrying from a fresh
device is denied as already-voted; fresh account 9 on device `f1` is denied
as device-already-voted; and for account 2 changing its vote only the rate
check applies. -/
theorem spec_C6_identity_checks_witness :
    canVote dbC6 "P" 2 "fX" "ip" 200 false = .denied alreadyVotedUserMsg ∧
    canVote dbC6 "P" 9 "f1" "ip" 200 false = .denied alreadyVotedDeviceMsg ∧
    (canVote dbC6 "P" 2 "f1" "ip" 200 true = .allowed ∨
      canVote dbC6 "P" 2 "f1" "ip" 200 true = .denied rateLimitedMsg) ∧
    (canVote dbC6 "P" 2 "f1" "ip" 200 true = .denied rateLimitedMsg ↔
      getRecentVotesFromIP dbC6 "P" "ip" (200 - 5 * 60 * 1000) ≥ 10) :=
  ⟨(spec_C6_identity_checks dbC6 "P" 2 "fX" "ip" 200).1 (by decide),
   (spec_C6_identity_checks dbC6 "P" 9 "f1" "ip" 200).2.1 (by decide) (by decide),
   (spec_C6_identity_checks dbC6 "P" 2 "f1" "ip" 200).2.2.1,
   (spec_C6_identity_checks dbC6 "P" 2 "f1" "ip" 200).2.2.2⟩

/-- **C3 (amended; see the counterexample).**  Every denial path of the vote
handler — missing fingerprint, unknown poll, and every `canVote` denial
(already voted, device already voted, rate limited) — is pure validation:
the returned state is exactly the state the handler was called in.  (A
failure after eligibility approval, by contrast, is not rolled back.) -/
theorem spec_C3_amended (db : DB) (p : String) (u : Nat) (oid : Option Nat)
    (oids : Option (List Nat)) (fp ip ua : String) (t : Int) :
    (handleVote db p u oid oids fp ip ua t).2 = .errFingerprint ∨
    (handleVote db p u oid oids fp ip ua t).2 = .errPollNotFound ∨
    (∃ r, (handleVote db p u oid oids fp ip ua t).2 = .errDenied r) →
    (handleVote db p u oid oids fp ip ua t).1 = db := by
  simp only [handleVote]
  split
  · intro _; rfl
  · split
    · intro _; rfl
    · split
      · intro _; rfl
      · split
        · rintro (h | h | ⟨r, h⟩) <;> simp at h
        · rintro (h | h | ⟨r, h⟩) <;> simp at h

/-- Witness for `spec_C3_amended`: a request with a missing fingerprint is
denied and the state is returned unchanged. -/
theorem spec_C3_amended_witness :
    ((handleVote initDB "P" 1 none none "" "ip" "ua" 0).2 = .errFingerprint ∨
     (handleVote initDB "P" 1 none none "" "ip" "ua" 0).2 = .errPollNotFound ∨
     (∃ r, (handleVote initDB "P" 1 none none "" "ip" "ua" 0).2 = .errDenied r)) ∧
    (handleVote initDB "P" 1 none none "" "ip" "ua" 0).1 = initDB :=
  ⟨Or.inl (by decide),
   spec_C3_amended initDB "P" 1 none none "" "ip" "ua" 0 (Or.inl (by decide))⟩

/-- State for the C3 counterexample: poll `P` with options 1 and 2, and one
accepted vote by user 2 for option 1. -/
def dbC3 : DB :=
  runOps initDB [Op.createPoll 1 "P" "Q" (some ["A", "B"]) "single" 0,
    Op.vote "P" 2 (some 1) none "f1" "ip" "ua" 100]

/-- **C3 counterexample.**  A vote-change request by user 2 that carries no
`optionId` fails after eligibility approval (the insert throws on the null
binding), yet the state is mutated: the user's prior vote row is deleted and
option 1's cached count decremented, so the erroring operation is not
all-or-nothing. -/
theorem spec_C3_counterexample :
    (handleVote dbC3 "P" 2 none none "f1" "ip" "ua" 200).2 = .errServer ∧
    getUserVotes dbC3 "P" 2 = [1] ∧
    getUserVotes (handleVote dbC3 "P" 2 none none "f1" "ip" "ua" 200).1 "P" 2 = [] ∧
    (handleVote dbC3 "P" 2 none none "f1" "ip" "ua" 200).1 ≠ dbC3 :=
  ⟨by decide, by decide, by decide, by decide⟩

/-- **C9 (confirmed).**  The poll read never mutates the state, reading
twice with no intervening operation yields the same snapshot, and for an
authenticated viewer the snapshot's `hasVoted` and `votedOptionIds` are
derived from the viewer's live ledger rows. -/
theorem spec_C9_snapshot (db : DB) (p : String) (v : Option Nat) :
    (handleGetPoll db p v).1 = db ∧
    (handleGetPoll ((handleGetPoll db p v).1) p v).2 = (handleGetPoll db p v).2 ∧
    (∀ u snap, v = some u → (handleGetPoll db p v).2 = some snap →
      (snap.hasVoted = true ↔ getUserVotes db p u ≠ []) ∧
      snap.votedOptionIds = getUserVotes db p u) := by
  refine ⟨handleGetPoll_state db p v, by rw [handleGetPoll_state], ?_⟩
  intro u snap hv hsnap
  subst hv
  unfold handleGetPoll at hsnap
  cases hp : getPoll db p with
  | none => rw [hp] at hsnap; exact absurd hsnap (by simp)
  | some poll =>
      rw [hp] at hsnap
      obtain rfl := Option.some_inj.mp hsnap
      constructor
      · simp [decide_eq_true_eq, List.length_pos]
      · rfl

/-- Witness state for C9: poll `P` with one vote by user 2. -/
def dbC9 : DB :=
  runOps initDB [Op.createPoll 1 "P" "Q" (some ["A", "B"]) "single" 0,
    Op.vote "P" 2 (some 1) none "f1" "ip" "ua" 100]

/-- The snapshot user 2 receives for poll `P` in `dbC9`. -/
def snapC9 : Snapshot := ((handleGetPoll dbC9 "P" (some 2)).2).get (by decide)

/-- Witness for `spec_C9_snapshot` at a concrete poll and viewer. -/
theorem spec_C9_snapshot_witness :
    ((handleGetPoll dbC9 "P" (some 2)).1 = dbC9) ∧
    ((handleGetPoll ((handleGetPoll dbC9 "P" (some 2)).1) "P" (some 2)).2
      = (handleGetPoll dbC9 "P" (some 2)).2) ∧
    ((snapC9.hasVoted = true ↔ getUserVotes dbC9 "P" 2 ≠ []) ∧
      snapC9.votedOptionIds = getUserVotes dbC9 "P" 2) :=
  ⟨(spec_C9_snapshot dbC9 "P" (some 2)).1,
   (spec_C9_snapshot dbC9 "P" (some 2)).2.1,
   (spec_C9_snapshot dbC9 "P" (some 2)).2.2 2 snapC9 rfl (by decide)⟩

/-- **C10 (confirmed).**  The option-delete route checks ownership of the
poll named in the URL but never checks that the option belongs to it: once
the requester owns that poll, any existing option id — here one belonging
to a different poll — is soft-deleted all the same. -/
theorem spec_C10_cross_poll_delete (db : DB) (u : Nat) (p : String) (o : Nat)
    (poll : Poll) (O : PollOption)
    (hp : getPoll db p = some poll) (hown : poll.created_by = u)
    (hO : O ∈ db.options) (hOid : O.id = o) (_hOp : O.poll_id ≠ p) :
    (handleDeleteOption db u p o).2 = .ok ∧
    ∃ R ∈ (handleDeleteOption db u p o).1.options,
      R.id = o ∧ R.is_deleted = 1 ∧ R.poll_id = O.poll_id := by
  unfold handleDeleteOption
  rw [hp]
  dsimp only
  rw [if_neg (fun hne => hne hown)]
  refine ⟨rfl, ⟨{ O with is_deleted := 1 }, ?_, hOid, rfl, rfl⟩⟩
  show { O with is_deleted := 1 } ∈ (deleteOption db o).options
  unfold deleteOption
  exact List.mem_map.mpr ⟨O, hO, by rw [if_pos hOid]⟩

/-- Witness state for C10: poll `P` owned by user 1 and poll `W` owned by
user 2, whose first option got id 3. -/
def dbC10 : DB :=
  runOps initDB [Op.createPoll 1 "P" "QP" (some ["A", "B"]) "single" 0,
    Op.createPoll 2 "W" "QW" (some ["C", "D"]) "single" 0]

/-- Witness for `spec_C10_cross_poll_delete`: user 1, owner of poll `P`
only, soft-deletes option 3 of poll `W` through `P`'s URL. -/
theorem spec_C10_cross_poll_delete_witness :
    (handleDeleteOption dbC10 1 "P" 3).2 = .ok ∧
    ∃ R ∈ (handleDeleteOption dbC10 1 "P" 3).1.options,
      R.id = 3 ∧ R.is_deleted = 1 ∧ R.poll_id = "W" :=
  spec_C10_cross_poll_delete dbC10 1 "P" 3
    ⟨"P", "QP", "single", 0, 1, 1, 0⟩ ⟨3, "W", "C", 0, 0⟩
    (by decide) (by decide) (by decide) (by decide) (by decide)

/-! ## Claim C7: poll creation validation -/

theorem foldl_createOption_polls (ts : List String) (db : DB) (pid : String) :
    (ts.foldl (fun d t => createOption d pid t) db).polls = db.polls := by
  induction ts generalizing db with
  | nil => rfl
  | cons s ts ih => simpa using ih (createOption db pid s)

theorem foldl_createOption_proj (ts : List String) (db : DB) (pid : String) :
    (ts.foldl (fun d t => createOption d pid t) db).options.map
        (fun o => (o.poll_id, o.option_text))
      = db.options.map (fun o => (o.poll_id, o.option_text))
        ++ ts.map (fun s => (pid, s)) := by
  induction ts generalizing db with
  | nil => simp
  | cons s ts ih =>
      simp only [List.foldl_cons, List.map_cons]
      rw [ih (createOption db pid s)]
      have hco : (createOption db pid s).options
          = db.options ++ [(⟨db.nextOptionId, pid, s, 0, 0⟩ : PollOption)] := rfl
      rw [hco]
      simp [List.map_append]

/-- **C7 (amended; see the counterexample).**  Poll creation fails with
`InvalidInput` exactly when the question is the empty value, the options
field is absent, or fewer than 2 options are supplied — counting blank
ones; blank option strings (and whitespace questions) are accepted.  In
the accepted case the poll row and exactly the supplied options are
created and the fresh id is returned. -/
theorem spec_C7_amended (db : DB) (u : Nat) (pid q : String)
    (os : Option (List String)) (ty : String) (t : Int) :
    ((q = "" ∨ os = none ∨ (os.getD []).length < 2) →
      handleCreatePoll db u pid q os ty t = (db, .errInvalid)) ∧
    (∀ l, q ≠ "" → os = some l → 2 ≤ l.length →
      (handleCreatePoll db u pid q os ty t).2 = .ok pid ∧
      (handleCreatePoll db u pid q os ty t).1.polls = db.polls ++
        [⟨pid, q, if ty = "" then "single" else ty,
          if ty = "multiple" then 1 else 0, u, 1, t⟩] ∧
      (handleCreatePoll db u pid q os ty t).1.options.map
          (fun o => (o.poll_id, o.option_text))
        = db.options.map (fun o => (o.poll_id, o.option_text))
          ++ l.map (fun s => (pid, s))) := by
  constructor
  · intro h
    unfold handleCreatePoll
    rw [if_pos h]
  · intro l hq hos hlen
    subst hos
    unfold handleCreatePoll
    rw [if_neg (fun hc => by
      rcases hc with h | h | h
      · exact hq h
      · exact Option.noConfusion h
      · simp only [Option.getD_some] at h; omega)]
    refine ⟨rfl, ?_, ?_⟩
    · show ((l.foldl (fun d s => createOption d pid s) _).polls) = _
      rw [foldl_createOption_polls]
    · show ((l.foldl (fun d s => createOption d pid s) _).options.map
          (fun o => (o.poll_id, o.option_text))) = _
      rw [foldl_createOption_proj]

/-- Witness for `spec_C7_amended`: an empty question is rejected with the
state unchanged, and a valid two-option request creates the poll row and
exactly the two supplied options. -/
theorem spec_C7_amended_witness :
    handleCreatePoll initDB 1 "P" "" (some ["A", "B"]) "single" 0
      = (initDB, .errInvalid) ∧
    ((handleCreatePoll initDB 1 "P2" "Q" (some ["A", "B"]) "single" 5).2 = .ok "P2" ∧
     (handleCreatePoll initDB 1 "P2" "Q" (some ["A", "B"]) "single" 5).1.polls
       = initDB.polls ++ [⟨"P2", "Q", if ("single" : String) = "" then "single" else "single",
           if ("single" : String) = "multiple" then 1 else 0, 1, 1, 5⟩] ∧
     (handleCreatePoll initDB 1 "P2" "Q" (some ["A", "B"]) "single" 5).1.options.map
         (fun o => (o.poll_id, o.option_text))
       = initDB.options.map (fun o => (o.poll_id, o.option_text))
         ++ ["A", "B"].map (fun s => ("P2", s))) :=
  ⟨(spec_C7_amended initDB 1 "P" "" (some ["A", "B"]) "single" 0).1 (Or.inl rfl),
   (spec_C7_amended initDB 1 "P2" "Q" (some ["A", "B"]) "single" 5).2
     ["A", "B"] (by decide) rfl (by decide)⟩

/-- **C7 counterexample.**  A creation request whose two options are both
blank strings is accepted and the poll is created with those blank options,
whereas the claim requires rejection when fewer than 2 non-blank options
are supplied. -/
theorem spec_C7_counterexample :
    (handleCreatePoll initDB 1 "P" "Q" (some ["", ""]) "single" 0).2 = .ok "P" ∧
    (handleCreatePoll initDB 1 "P" "Q" (some ["", ""]) "single" 0).1.options.map
        (fun o => o.option_text) = ["", ""] ∧
    (handleCreatePoll initDB 1 "P" "Q" (some ["", ""]) "single" 0).2 ≠ .errInvalid :=
  ⟨by decide, by decide, by decide⟩

/-! ## Claim C8: vote-change round trip -/

/-- `SELECT`ing one option row by id. -/
def findOption (db : DB) (i : Nat) : Option PollOption :=
  db.options.find? (fun o => o.id == i)

theorem find?_map_id_preserving (f : PollOption → PollOption)
    (h : ∀ o, (f o).id = o.id) (l : List PollOption) (i : Nat) :
    (l.map f).find? (fun o => o.id == i) = (l.find? (fun o => o.id == i)).map f := by
  induction l with
  | nil => rfl
  | cons x l ih =>
      by_cases hp : x.id = i
      · have h1 : ((f x).id == i) = true := by rw [h x]; exact beq_iff_eq.mpr hp
        have h2 : (x.id == i) = true := beq_iff_eq.mpr hp
        simp [List.find?_cons, h1, h2]
      · have h1 : ((f x).id == i) = false := by rw [h x]; exact beq_false_of_ne hp
        have h2 : (x.id == i) = false := beq_false_of_ne hp
        simp [List.find?_cons, h1, h2, ih]

theorem filter_not_filter (l : List Vote) (p : Vote → Bool) :
    (l.filter (fun v => !(p v))).filter p = [] := by
  induction l with
  | nil => rfl
  | cons a l ih => cases h : p a <;> simp [List.filter_cons, h, ih]

/-- Closed form of a successful single-choice vote change: the prior single
vote row for option `a` is decremented and deleted, then one row for `b` is
inserted and `b`'s counter incremented. -/
theorem handleVote_change_single (db : DB) (p : String) (u a b : Nat)
    (fp ip ua : String) (t : Int) (poll : Poll)
    (hp : getPoll db p = some poll)
    (hfp : fp ≠ "") (hev : getUserVotes db p u = [a])
    (hr : getRecentVotesFromIP db p ip (t - 5 * 60 * 1000) < 10) :
    handleVote db p u (some b) none fp ip ua t =
      (incrementVoteCount
        (recordVote
          (removeUserVotes
            (decrementVoteCount (recordDeviceFingerprint db u fp ua t) a) p u)
          p b u fp ip ua t) b,
       .ok true) := by
  have hcv : canVote db p u fp ip t true = .allowed := by
    rw [canVote_identity_pass db p u fp ip t true (Or.inl rfl),
      show (if (true : Bool) = true then 10 else 5) = 10 from rfl, if_neg (by omega)]
  simp only [handleVote]
  rw [if_neg hfp, hp]
  dsimp only
  rw [hev]
  rw [show decide (0 < ([a] : List Nat).length) = true from rfl]
  rw [hcv]
  rw [if_neg (fun hc : poll.allow_multiple ≠ 0 ∧ (none : Option (List Nat)).isSome = true =>
    absurd hc.2 (by simp))]
  rfl

theorem decAdj_id (i : Nat) (o : PollOption) :
    (if o.id = i ∧ 0 < o.vote_count
     then { o with vote_count := o.vote_count - 1 } else o).id = o.id := by
  split <;> rfl

theorem incAdj_id (i : Nat) (o : PollOption) :
    (if o.id = i then { o with vote_count := o.vote_count + 1 } else o).id = o.id := by
  split <;> rfl

/-- **C8 (confirmed).**  On a single-choice poll, a voter holding exactly one
live vote row (for option `a`) who successfully changes the vote to option
`b` ends with exactly one live row, for `b`; `a`'s cached count is
decremented by one (floored at zero, by truncated subtraction), `b`'s is
incremented by one, and the voter's total ledger row count is again 1. -/
theorem spec_C8_change_round_trip (db : DB) (p : String) (u a b : Nat)
    (fp ip ua : String) (t : Int) (poll : Poll) (A B : PollOption)
    (hp : getPoll db p = some poll) (_hm : poll.allow_multiple = 0)
    (hfp : fp ≠ "") (hev : getUserVotes db p u = [a])
    (hr : getRecentVotesFromIP db p ip (t - 5 * 60 * 1000) < 10)
    (hab : a ≠ b)
    (hA : findOption db a = some A) (hB : findOption db b = some B) :
    (handleVote db p u (some b) none fp ip ua t).2 = .ok true ∧
    getUserVotes (handleVote db p u (some b) none fp ip ua t).1 p u = [b] ∧
    (getUserVotes (handleVote db p u (some b) none fp ip ua t).1 p u).length = 1 ∧
    findOption (handleVote db p u (some b) none fp ip ua t).1 a
      = some { A with vote_count := A.vote_count - 1 } ∧
    findOption (handleVote db p u (some b) none fp ip ua t).1 b
      = some { B with vote_count := B.vote_count + 1 } := by
  have hA' : db.options.find? (fun o => o.id == a) = some A := hA
  have hB' : db.options.find? (fun o => o.id == b) = some B := hB
  have hAid : A.id = a := by
    have h := List.find?_some hA'
    simpa using h
  have hBid : B.id = b := by
    have h := List.find?_some hB'
    simpa using h
  rw [handleVote_change_single db p u a b fp ip ua t poll hp hfp hev hr]
  have hgv : getUserVotes
      (incrementVoteCount
        (recordVote
          (removeUserVotes
            (decrementVoteCount (recordDeviceFingerprint db u fp ua t) a) p u)
          p b u fp ip ua t) b) p u = [b] := by
    unfold getUserVotes
    have hvotes : (incrementVoteCount
        (recordVote
          (removeUserVotes
            (decrementVoteCount (recordDeviceFingerprint db u fp ua t) a) p u)
          p b u fp ip ua t) b).votes
        = ((recordDeviceFingerprint db u fp ua t).votes.filter
            (fun v => !(v.poll_id == p && v.user_id == u)))
          ++ [⟨(removeUserVotes
              (decrementVoteCount (recordDeviceFingerprint db u fp ua t) a) p u).nextVoteId,
            p, b, u, fp, ip, ua, t⟩] := rfl
    rw [hvotes, List.filter_append, filter_not_filter]
    simp [List.filter_cons]
  have hopts : (incrementVoteCount
      (recordVote
        (removeUserVotes
          (decrementVoteCount (recordDeviceFingerprint db u fp ua t) a) p u)
        p b u fp ip ua t) b).options
      = (db.options.map (fun o => if o.id = a ∧ 0 < o.vote_count
          then { o with vote_count := o.vote_count - 1 } else o)).map
          (fun o => if o.id = b then { o with vote_count := o.vote_count + 1 } else o) := by
    show (((recordDeviceFingerprint db u fp ua t).options.map
        (fun o => if o.id = a ∧ 0 < o.vote_count
          then { o with vote_count := o.vote_count - 1 } else o)).map
        (fun o => if o.id = b then { o with vote_count := o.vote_count + 1 } else o)) = _
    rw [recordDeviceFingerprint_options]
  refine ⟨rfl, hgv, by rw [hgv]; rfl, ?_, ?_⟩
  · show ((incrementVoteCount
      (recordVote
        (removeUserVotes
          (decrementVoteCount (recordDeviceFingerprint db u fp ua t) a) p u)
        p b u fp ip ua t) b).options).find? (fun o => o.id == a) = _
    rw [hopts, find?_map_id_preserving _ (incAdj_id b) _ a,
      find?_map_id_preserving _ (decAdj_id a) _ a, hA']
    by_cases hvc : 0 < A.vote_count
    · rw [Option.map_some', if_pos ⟨hAid, hvc⟩, Option.map_some',
        if_neg (fun h : A.id = b => hab (hAid ▸ h))]
    · rw [Option.map_some', if_neg (fun hc : A.id = a ∧ 0 < A.vote_count => hvc hc.2),
        Option.map_some', if_neg (fun h : A.id = b => hab (hAid ▸ h))]
      have h0 : A.vote_count - 1 = A.vote_count := by omega
      rw [h0]
  · show ((incrementVoteCount
      (recordVote
        (removeUserVotes
          (decrementVoteCount (recordDeviceFingerprint db u fp ua t) a) p u)
        p b u fp ip ua t) b).options).find? (fun o => o.id == b) = _
    rw [hopts, find?_map_id_preserving _ (incAdj_id b) _ b,
      find?_map_id_preserving _ (decAdj_id a) _ b, hB']
    rw [Option.map_some', if_neg (fun hc : B.id = a ∧ 0 < B.vote_count =>
      hab (hBid ▸ hc.1).symm), Option.map_some', if_pos hBid]

/-! ## Claims C1 and C4: option-id validation and soft deletion -/

/-- Closed form of a vote by a fresh voter (no prior rows for the account,
none for the device, below the rate ceiling): the handler runs the insert
loop directly on the ids derived from the request. -/
theorem handleVote_fresh (db : DB) (p : String) (u : Nat) (oid : Option Nat)
    (oids : Option (List Nat)) (fp ip ua : String) (t : Int) (poll : Poll)
    (hp : getPoll db p = some poll) (hfp : fp ≠ "")
    (hu : getUserVotes db p u = []) (hd : hasDeviceVoted db p fp = 0)
    (hr : getRecentVotesFromIP db p ip (t - 5 * 60 * 1000) < 5) :
    handleVote db p u oid oids fp ip ua t =
      match voteLoop p u fp ip ua t (recordDeviceFingerprint db u fp ua t)
          (if poll.allow_multiple ≠ 0 ∧ oids.isSome
           then (oids.getD []).map some else [oid]) with
      | .error d => (d, .errServer)
      | .ok d => (d, .ok false) := by
  have hu0 : hasUserVoted db p u = 0 := by rw [hasUserVoted_eq_length, hu]; rfl
  have hcv : canVote db p u fp ip t false = .allowed := by
    rw [canVote_identity_pass db p u fp ip t false (Or.inr ⟨hu0, hd⟩),
      show (if (false : Bool) = true then 10 else 5) = 5 from rfl, if_neg (by omega)]
  simp only [handleVote]
  rw [if_neg hfp, hp]
  dsimp only
  rw [hu]
  rw [show decide (0 < ([] : List Nat).length) = false from rfl]
  rw [hcv]
  rfl

/-- The rows the insert loop appends: one per requested id, with
consecutive AUTOINCREMENT vote ids. -/
def mkVotes (p : String) (u : Nat) (fp ip ua : String) (t : Int) :
    Nat → List Nat → List Vote
  | _, [] => []
  | n, i :: rest => ⟨n, p, i, u, fp, ip, ua, t⟩ :: mkVotes p u fp ip ua t (n + 1) rest

/-- On a list of present ids the insert loop always succeeds and appends
exactly one ledger row per id, in order. -/
theorem voteLoop_all_some (p : String) (u : Nat) (fp ip ua : String) (t : Int) :
    ∀ (ids : List Nat) (db : DB),
      ∃ d, voteLoop p u fp ip ua t db (ids.map some) = .ok d ∧
        d.votes = db.votes ++ mkVotes p u fp ip ua t db.nextVoteId ids
  | [], db => ⟨db, rfl, by simp [mkVotes]⟩
  | i :: rest, db => by
      obtain ⟨d, hd, hv⟩ := voteLoop_all_some p u fp ip ua t rest
        (incrementVoteCount (recordVote db p i u fp ip ua t) i)
      refine ⟨d, hd, ?_⟩
      rw [hv]
      show (db.votes ++ [⟨db.nextVoteId, p, i, u, fp, ip, ua, t⟩])
          ++ mkVotes p u fp ip ua t (db.nextVoteId + 1) rest
        = db.votes ++ mkVotes p u fp ip ua t db.nextVoteId (i :: rest)
      rw [List.append_assoc]
      rfl

/-- **C1 (amended; see the counterexample).**  The handler performs no
option-id validation.  On a single-choice poll it reads only the single
`optionId` field — a request carrying extra `optionIds` behaves exactly
like one without them, so extras are ignored, not rejected.  On a
multiple-choice poll whatever `optionIds` list a fresh voter supplies —
including the empty list, unknown ids and soft-deleted ids — is accepted
and recorded verbatim, one ledger row per listed id. -/
theorem spec_C1_amended :
    (∀ (db : DB) (p : String) (u : Nat) (oid : Option Nat)
        (oids : Option (List Nat)) (fp ip ua : String) (t : Int) (poll : Poll),
      getPoll db p = some poll → poll.allow_multiple = 0 →
      handleVote db p u oid oids fp ip ua t = handleVote db p u oid none fp ip ua t) ∧
    (∀ (db : DB) (p : String) (u : Nat) (oid : Option Nat) (ids : List Nat)
        (fp ip ua : String) (t : Int) (poll : Poll),
      getPoll db p = some poll → poll.allow_multiple ≠ 0 → fp ≠ "" →
      getUserVotes db p u = [] → hasDeviceVoted db p fp = 0 →
      getRecentVotesFromIP db p ip (t - 5 * 60 * 1000) < 5 →
      (handleVote db p u oid (some ids) fp ip ua t).2 = .ok false ∧
      (handleVote db p u oid (some ids) fp ip ua t).1.votes
        = db.votes ++ mkVotes p u fp ip ua t db.nextVoteId ids) := by
  constructor
  · intro db p u oid oids fp ip ua t poll hp hm
    by_cases hfp : fp = ""
    · simp only [handleVote, if_pos hfp]
    · simp only [handleVote, if_neg hfp]
      rw [hp]
      dsimp only
      rw [if_neg (fun hc : poll.allow_multiple ≠ 0 ∧ oids.isSome = true => hc.1 hm),
        if_neg (fun hc : poll.allow_multiple ≠ 0 ∧ (none : Option (List Nat)).isSome = true =>
          hc.1 hm)]
  · intro db p u oid ids fp ip ua t poll hp hm hfp hu hd hr
    rw [handleVote_fresh db p u oid (some ids) fp ip ua t poll hp hfp hu hd hr]
    rw [if_pos ⟨hm, rfl⟩]
    obtain ⟨d, hd2, hv⟩ := voteLoop_all_some p u fp ip ua t ids
      (recordDeviceFingerprint db u fp ua t)
    have hd2' : voteLoop p u fp ip ua t (recordDeviceFingerprint db u fp ua t)
        ((some ids).getD [] |>.map some) = .ok d := hd2
    rw [hd2']
    refine ⟨rfl, ?_⟩
    show d.votes = db.votes ++ mkVotes p u fp ip ua t db.nextVoteId ids
    rw [hv, recordDeviceFingerprint_votes, recordDeviceFingerprint_nextVoteId]

/-- Witness states for C1: a single-choice and a multiple-choice poll. -/
def dbC1s : DB := (handleCreatePoll initDB 1 "P" "Q" (some ["A", "B"]) "single" 0).1

def dbC1m : DB := (handleCreatePoll initDB 1 "M" "Q" (some ["A", "B"]) "multiple" 0).1

/-- Witness for `spec_C1_amended`: on the single-choice poll a request with
extra `optionIds` equals the same request without them, and on the
multiple-choice poll the list `[9, 1]` — id 9 does not exist — is accepted
and recorded verbatim. -/
theorem spec_C1_amended_witness :
    (handleVote dbC1s "P" 2 (some 1) (some [1, 2]) "f1" "ip" "ua" 100
      = handleVote dbC1s "P" 2 (some 1) none "f1" "ip" "ua" 100) ∧
    ((handleVote dbC1m "M" 2 none (some [9, 1]) "f1" "ip" "ua" 100).2 = .ok false ∧
     (handleVote dbC1m "M" 2 none (some [9, 1]) "f1" "ip" "ua" 100).1.votes
       = dbC1m.votes ++ mkVotes "M" 2 "f1" "ip" "ua" 100 dbC1m.nextVoteId [9, 1]) :=
  ⟨spec_C1_amended.1 dbC1s "P" 2 (some 1) (some [1, 2]) "f1" "ip" "ua" 100
     ⟨"P", "Q", "single", 0, 1, 1, 0⟩ (by decide) (by decide),
   spec_C1_amended.2 dbC1m "M" 2 none [9, 1] "f1" "ip" "ua" 100
     ⟨"M", "Q", "multiple", 1, 1, 1, 0⟩ (by decide) (by decide) (by decide)
     (by decide) (by decide) (by decide)⟩

/-- The C1 counterexample's multiple-choice poll. -/
def dbC1x : DB := (handleCreatePoll initDB 1 "M" "Q" (some ["A", "B"]) "multiple" 0).1

/-- **C1 counterexample.**  On a multiple-choice poll a vote request whose
`optionIds` is the empty list is accepted with success and records no vote
rows, whereas the claim requires the empty set to be rejected. -/
theorem spec_C1_counterexample :
    (handleVote dbC1x "M" 2 none (some []) "f1" "ip" "ua" 100).2 = .ok false ∧
    (handleVote dbC1x "M" 2 none (some []) "f1" "ip" "ua" 100).1.votes = [] :=
  ⟨by decide, by decide⟩

/-- **C4 (amended; see the counterexample).**  Soft deletion keeps every
historical ledger row and every option row (only the `is_deleted` flag
changes), but the vote path never consults the flag: a fresh voter's
request naming a soft-deleted option id is accepted and a new ledger row
referencing that option is inserted. -/
theorem spec_C4_amended :
    (∀ (db : DB) (u : Nat) (p : String) (o : Nat),
      (handleDeleteOption db u p o).1.votes = db.votes ∧
      (handleDeleteOption db u p o).1.options.map
          (fun x => (x.id, x.poll_id, x.option_text, x.vote_count))
        = db.options.map (fun x => (x.id, x.poll_id, x.option_text, x.vote_count))) ∧
    (∀ (db : DB) (p : String) (u o : Nat) (fp ip ua : String) (t : Int)
        (poll : Poll) (O : PollOption),
      getPoll db p = some poll → fp ≠ "" →
      getUserVotes db p u = [] → hasDeviceVoted db p fp = 0 →
      getRecentVotesFromIP db p ip (t - 5 * 60 * 1000) < 5 →
      O ∈ db.options → O.id = o → O.is_deleted = 1 →
      (handleVote db p u (some o) none fp ip ua t).2 = .ok false ∧
      (handleVote db p u (some o) none fp ip ua t).1.votes
        = db.votes ++ [⟨db.nextVoteId, p, o, u, fp, ip, ua, t⟩]) := by
  constructor
  · intro db u p o
    unfold handleDeleteOption
    split
    · exact ⟨rfl, rfl⟩
    · split
      · exact ⟨rfl, rfl⟩
      · constructor
        · rfl
        · show (db.options.map (fun x => if x.id = o then { x with is_deleted := 1 } else x)).map
              (fun x => (x.id, x.poll_id, x.option_text, x.vote_count)) = _
          rw [List.map_map]
          refine List.map_congr_left (fun x _ => ?_)
          by_cases hx : x.id = o
          · simp [Function.comp, hx]
          · simp [Function.comp, hx]
  · intro db p u o fp ip ua t poll O hp hfp hu hd hr _hO _hOid _hdel
    rw [handleVote_fresh db p u (some o) none fp ip ua t poll hp hfp hu hd hr]
    rw [if_neg (fun hc : poll.allow_multiple ≠ 0 ∧ (none : Option (List Nat)).isSome = true =>
      absurd hc.2 (by simp))]
    obtain ⟨d, hd2, hv⟩ := voteLoop_all_some p u fp ip ua t [o]
      (recordDeviceFingerprint db u fp ua t)
    have hd2' : voteLoop p u fp ip ua t (recordDeviceFingerprint db u fp ua t)
        [some o] = .ok d := hd2
    rw [hd2']
    refine ⟨rfl, ?_⟩
    show d.votes = _
    rw [hv, recordDeviceFingerprint_votes, recordDeviceFingerprint_nextVoteId]
    rfl

/-- C4 state: poll `P` whose option 1 has been soft-deleted by its owner. -/
def dbC4x : DB :=
  runOps initDB [Op.createPoll 1 "P" "Q" (some ["A", "B"]) "single" 0,
    Op.removeOption 1 "P" 1]

/-- Witness for `spec_C4_amended`: deleting an option of `dbC4x` leaves the
ledger and the option rows' data untouched, and a fresh voter's request for
the soft-deleted option 1 is accepted and recorded. -/
theorem spec_C4_amended_witness :
    ((handleDeleteOption dbC4x 1 "P" 2).1.votes = dbC4x.votes ∧
     (handleDeleteOption dbC4x 1 "P" 2).1.options.map
         (fun x => (x.id, x.poll_id, x.option_text, x.vote_count))
       = dbC4x.options.map (fun x => (x.id, x.poll_id, x.option_text, x.vote_count))) ∧
    ((handleVote dbC4x "P" 2 (some 1) none "f1" "ip" "ua" 100).2 = .ok false ∧
     (handleVote dbC4x "P" 2 (some 1) none "f1" "ip" "ua" 100).1.votes
       = dbC4x.votes ++ [⟨dbC4x.nextVoteId, "P", 1, 2, "f1", "ip", "ua", 100⟩]) :=
  ⟨spec_C4_amended.1 dbC4x 1 "P" 2,
   spec_C4_amended.2 dbC4x "P" 2 1 "f1" "ip" "ua" 100
     ⟨"P", "Q", "single", 0, 1, 1, 0⟩ ⟨1, "P", "A", 0, 1⟩
     (by decide) (by decide) (by decide) (by decide) (by decide)
     (by decide) (by decide) (by decide)⟩

/-- **C4 counterexample.**  Option 1 of poll `P` is soft-deleted, yet a
subsequent vote operation succeeds and inserts a new ledger row referencing
it — the claim says no such row is ever inserted. -/
theorem spec_C4_counterexample :
    (∃ O ∈ dbC4x.options, O.id = 1 ∧ O.is_deleted = 1) ∧
    (handleVote dbC4x "P" 2 (some 1) none "f1" "ip" "ua" 100).2 = .ok false ∧
    (∃ v ∈ (handleVote dbC4x "P" 2 (some 1) none "f1" "ip" "ua" 100).1.votes,
      v.option_id = 1) :=
  ⟨by decide, by decide, by decide⟩

/-- C8 state: poll `P` where user 2 holds one live vote for option 1
(option 1 cached count 1, option 2 cached count 0). -/
def dbC8 : DB :=
  runOps initDB [Op.createPoll 1 "P" "Q" (some ["A", "B"]) "single" 0,
    Op.vote "P" 2 (some 1) none "f1" "ip" "ua" 100]

/-- Witness for `spec_C8_change_round_trip`: user 2 changes the vote from
option 1 to option 2; afterwards the single live row is for option 2,
option 1's count fell to 0 and option 2's rose to 1. -/
theorem spec_C8_change_round_trip_witness :
    (handleVote dbC8 "P" 2 (some 2) none "f1" "ip" "ua" 200).2 = .ok true ∧
    getUserVotes (handleVote dbC8 "P" 2 (some 2) none "f1" "ip" "ua" 200).1 "P" 2 = [2] ∧
    (getUserVotes (handleVote dbC8 "P" 2 (some 2) none "f1" "ip" "ua" 200).1 "P" 2).length = 1 ∧
    findOption (handleVote dbC8 "P" 2 (some 2) none "f1" "ip" "ua" 200).1 1
      = some ⟨1, "P", "A", 0, 0⟩ ∧
    findOption (handleVote dbC8 "P" 2 (some 2) none "f1" "ip" "ua" 200).1 2
      = some ⟨2, "P", "B", 1, 0⟩ :=
  spec_C8_change_round_trip dbC8 "P" 2 1 2 "f1" "ip" "ua" 200
    ⟨"P", "Q", "single", 0, 1, 1, 0⟩ ⟨1, "P", "A", 1, 0⟩ ⟨2, "P", "B", 0, 0⟩
    (by decide) (by decide) (by decide) (by decide) (by decide) (by decide)
    (by decide) (by decide)
